import Mathlib

/-!
# Verification of the review-analysis pipeline (Sistem-analysis)

A shallow embedding, in Lean 4, of the review analysis pipeline of this
repository: language detection, sentiment classification (primary model with
fallback), emotion-intensity heuristics, aspect extraction, the orchestrating
`analyze_and_save` service, and the Celery batch task with its partial-failure
accounting.

External effectful collaborators (the `langdetect` detector, the transformers
models, TextBlob, spaCy matching, key-phrase extraction, and the database
commit) are modelled as oracle inputs of type `Except String α`: an
`Except.error` value stands for the Python call raising, an `Except.ok` value
for it returning.  Floating point numbers are modelled by `ℚ`.  All the
control flow around those calls — the `try`/`except` structure, the branch
conditions, the arithmetic on scores, the dictionary updates — is translated
directly from the Python sources.
-/

namespace ReviewAnalysis

/-! ## Sentiment data (app/services/nlp/sentiment.py) -/

/-- The three-way score dictionary `{'negative': …, 'neutral': …, 'positive': …}`
built by `_analyze_with_transformers` / `_analyze_with_fallback`; the field
order is the Python dict's insertion order. -/
structure Scores where
  negative : ℚ
  neutral : ℚ
  positive : ℚ
  deriving DecidableEq, Repr

/-- The result dictionary returned by `SentimentAnalyzer.analyze`:
`{'sentiment', 'confidence', 'scores', 'emotion_intensity'}`.  The sentiment
label is kept as the literal string produced by the source;
`emotion_intensity` is an insertion-ordered association list, the model of a
Python dict. -/
structure SentimentResult where
  sentiment : String
  confidence : ℚ
  scores : Scores
  emotion_intensity : List (String × ℚ)
  deriving DecidableEq, Repr

/-- The configuration state of `SentimentAnalyzer.__init__`: the
`use_transformers` and `fallback` flags, and the set of languages whose
models loaded successfully (keys of `self.models`). -/
structure SAState where
  use_transformers : Bool
  fallback : Bool
  models : List String
  deriving Repr

/-- The outcomes of the three external calls `SentimentAnalyzer` makes on one
text: `langdetect.detect(text)`, the transformers model's softmax probability
triple `(negative, neutral, positive)`, and `TextBlob(text).sentiment.polarity`.
`Except.error` models the call raising. -/
structure SAOracle where
  detected : Except String String
  model_probs : Except String (ℚ × ℚ × ℚ)
  blob_polarity : Except String ℚ

/-- Method `SentimentAnalyzer._detect_language`: return `'ru'` when the detected
code starts with `'ru'`, `'en'` for any other detected code, and `'ru'` when
the detector raises. -/
def detect_language (detected : Except String String) : String :=
  match detected with
  | Except.ok lang => if lang.startsWith "ru" then "ru" else "en"
  | Except.error _ => "ru"

/-- Python's `max` over a nonempty sequence with a key: scan left to right,
replacing the current best only on a strictly greater key, so the first
maximal element wins. -/
def pyMax (best : String × ℚ) : List (String × ℚ) → String × ℚ
  | [] => best
  | x :: xs => pyMax (if x.2 > best.2 then x else best) xs

/-- Selection `max(sentiment_scores, key=sentiment_scores.get)` over the dict whose
insertion order is negative, neutral, positive. -/
def dominant_sentiment (s : Scores) : String :=
  (pyMax ("negative", s.negative) [("neutral", s.neutral), ("positive", s.positive)]).1

/-- The dict lookup `sentiment_scores[label]`. -/
def scoreOf (s : Scores) (label : String) : ℚ :=
  if label = "negative" then s.negative
  else if label = "neutral" then s.neutral
  else if label = "positive" then s.positive
  else 0

/-- The `emotion_keywords` dict of `_calculate_emotion_intensity`, verbatim. -/
def emotion_keywords : List (String × List String) :=
  [("joy", ["хорошо", "отлично", "прекрасно", "рад", "счастлив",
            "good", "great", "excellent", "happy", "joy"]),
   ("anger", ["плохо", "ужасно", "злой", "разочарован", "ненавижу",
              "bad", "terrible", "angry", "hate", "disappointed"]),
   ("sadness", ["грустно", "печально", "разочарование", "sad", "disappointed", "unhappy"]),
   ("surprise", ["удивительно", "неожиданно", "шокирован",
                 "surprising", "unexpected", "shocked"]),
   ("fear", ["беспокоюсь", "боюсь", "опасаюсь", "worry", "fear", "concerned"])]

/-- Python's substring test `needle in haystack` (for nonempty needles):
`splitOn` yields more than one piece exactly when the needle occurs. -/
def pyContains (haystack needle : String) : Bool :=
  (haystack.splitOn needle).length != 1

/-- The per-emotion loop of `_calculate_emotion_intensity`: for each emotion,
count the keywords occurring in the (already lower-cased) text and scale the
count by 0.2, capped at 1.0. -/
def emotion_counts (text_lower : String) : List (String × ℚ) :=
  emotion_keywords.map (fun ek =>
    (ek.1, min 1 ((ek.2.countP (fun w => pyContains text_lower w) : ℚ) * 0.2)))

/-- Method `_calculate_emotion_intensity`: lower-case the text, build the per-emotion
intensities, then divide every value by the total when the total is positive.
The `language` argument is accepted and ignored, as in the source. -/
def calculate_emotion_intensity (text : String) (language : String) : List (String × ℚ) :=
  let intensities := emotion_counts text.toLower
  let total := (intensities.map (fun kv => kv.2)).sum
  if 0 < total then intensities.map (fun kv => (kv.1, kv.2 / total)) else intensities

/-- The fixed neutral dictionary returned by `_analyze_with_fallback` when the
fallback body itself raises. -/
def default_neutral : SentimentResult :=
  { sentiment := "neutral", confidence := 0.5,
    scores := { negative := 0.3, neutral := 0.4, positive := 0.3 },
    emotion_intensity := [] }

/-- The body of `_analyze_with_fallback` on a successfully computed TextBlob
polarity: the threshold rules on `polarity` and the derived scores dict. -/
def fallback_result (polarity : ℚ) : SentimentResult :=
  let sc : String × ℚ :=
    if polarity > 0.1 then ("positive", min 1 (polarity + 0.5))
    else if polarity < -0.1 then ("negative", min 1 (|polarity| + 0.5))
    else ("neutral", 0.5)
  { sentiment := sc.1, confidence := sc.2,
    scores := { negative := max 0 (-polarity),
                neutral := if sc.1 = "neutral" then 0.5 else 0.2,
                positive := max 0 polarity },
    emotion_intensity := [] }

/-- Method `_analyze_with_fallback`: on a TextBlob failure the unconditional
`except` returns the fixed neutral default, so this function is total. -/
def analyze_with_fallback (blob_polarity : Except String ℚ) : SentimentResult :=
  match blob_polarity with
  | Except.ok p => fallback_result p
  | Except.error _ => default_neutral

/-- Method `_analyze_with_transformers`: on model output, build the scores dict in
the fixed order negative, neutral, positive, select the dominant label with
Python `max`, and attach the emotion intensities; if the model call raises,
fall back when `self.fallback` is set, else re-raise. -/
def analyze_with_transformers (st : SAState) (o : SAOracle) (text language : String) :
    Except String SentimentResult :=
  match o.model_probs with
  | Except.ok probs =>
      let sentiment_scores : Scores :=
        { negative := probs.1, neutral := probs.2.1, positive := probs.2.2 }
      let dom := dominant_sentiment sentiment_scores
      Except.ok { sentiment := dom,
                  confidence := scoreOf sentiment_scores dom,
                  scores := sentiment_scores,
                  emotion_intensity := calculate_emotion_intensity text language }
  | Except.error e =>
      if st.fallback then Except.ok (analyze_with_fallback o.blob_polarity)
      else Except.error e

/-- The `if language is None: language = self._detect_language(text)` step at
the head of `analyze`. -/
def resolve_language (o : SAOracle) (language : Option String) : String :=
  match language with
  | some l => l
  | none => detect_language o.detected

/-- Method `SentimentAnalyzer.analyze`: resolve the language (auto-detect when
omitted), then use the transformers path when enabled and a model exists for
the language, else the fallback path. -/
def analyze (st : SAState) (o : SAOracle) (text : String) (language : Option String) :
    Except String SentimentResult :=
  if st.use_transformers && st.models.contains (resolve_language o language) then
    analyze_with_transformers st o text (resolve_language o language)
  else
    Except.ok (analyze_with_fallback o.blob_polarity)

/-! ## Aspect extraction (app/services/nlp/aspects.py) -/

/-- One spaCy matcher hit inside `extract_aspects`: the matched span's text
(`doc[start:end].text`) and the text of the sentence containing it
(`span.sent.text`), in match order. -/
structure AspectMatch where
  token : String
  sentence : String
  deriving DecidableEq, Repr

/-- The dict update `aspects.setdefault(aspect, []).append(sentence)` shape of
the loop body (`if aspect not in aspects: aspects[aspect] = []` followed by
`aspects[aspect].append(sentence)`), on an insertion-ordered association
list. -/
def insert_aspect : List (String × List String) → String → String →
    List (String × List String)
  | [], key, s => [(key, [s])]
  | kv :: rest, key, s =>
      if kv.1 = key then (kv.1, kv.2 ++ [s]) :: rest
      else kv :: insert_aspect rest key s

/-- Method `AspectExtractor.extract_aspects`: the spaCy pipeline plus matcher is the
oracle; on its failure the `except` branch logs and the initial empty
`aspects` dict is returned, otherwise each match's lower-cased span text keys
the sentence containing it. -/
def extract_aspects (matched : Except String (List AspectMatch)) :
    List (String × List String) :=
  match matched with
  | Except.error _ => []
  | Except.ok ms =>
      ms.foldl (fun acc m => insert_aspect acc m.token.toLower m.sentence) []

/-- The dict lookup `aspects[key]` as an `Option`. -/
def aspect_lookup : List (String × List String) → String → Option (List String)
  | [], _ => none
  | kv :: rest, key => if kv.1 = key then some kv.2 else aspect_lookup rest key

/-- Method `AspectExtractor.classify_aspect_sentiment`: delegate to
`sentiment_analyzer.analyze` and keep only label and confidence; on any
failure return the fixed `{'neutral', 0.5}` default. -/
def classify_aspect_sentiment (st : SAState) (o : SAOracle) (aspect_text : String) :
    String × ℚ :=
  match analyze st o aspect_text none with
  | Except.ok r => (r.sentiment, r.confidence)
  | Except.error _ => ("neutral", 0.5)

/-! ## Persistence model (app/models/review.py, app/database.py)

The SQLAlchemy session is modelled as committed table contents plus the
session's uncommitted pending changes; `commit` publishes the pending changes
and `rollback` discards them. -/

/-- A `Review` row: the columns the pipeline reads or writes. -/
structure Review where
  id : Nat
  text : String
  language : Option String
  deriving Repr

/-- An `AnalysisResult` row as assembled by `analyze_and_save`. -/
structure AnalysisResult where
  review_id : Nat
  sentiment : String
  confidence : ℚ
  aspects : List (String × (String × ℚ))
  key_phrases : List (String × List String)
  emotion_intensity : List (String × ℚ)
  deriving Repr

/-- The database session state: committed `reviews` and `analysis_results`
tables, the session's pending (added, uncommitted) `AnalysisResult` rows, and
the pending in-session mutation of a review's `language` column. -/
structure Db where
  reviews : List Review
  rows : List AnalysisResult
  pending : List AnalysisResult
  pending_language : Option (Nat × String)
  deriving Repr

/-- Fetch by id: `select(Review).where(Review.id == review_id)` with `scalar_one_or_none()`. -/
def Db.find_review (db : Db) (rid : Nat) : Option Review :=
  db.reviews.find? (fun r => r.id = rid)

/-- The in-session assignment `review.language = language`. -/
def Db.set_language (db : Db) (rid : Nat) (lang : String) : Db :=
  { db with pending_language := some (rid, lang) }

/-- Session add, `db.add(analysis_result)`. -/
def Db.add (db : Db) (row : AnalysisResult) : Db :=
  { db with pending := db.pending ++ [row] }

/-- Commit, `await db.commit()`: publish the pending rows and the pending language
update into the committed tables. -/
def Db.commit (db : Db) : Db :=
  { reviews :=
      match db.pending_language with
      | none => db.reviews
      | some (rid, lang) =>
          db.reviews.map (fun r => if r.id = rid then { r with language := some lang } else r),
    rows := db.rows ++ db.pending,
    pending := [],
    pending_language := none }

/-- Rollback, `await db.rollback()`: discard every pending change. -/
def Db.rollback (db : Db) : Db :=
  { db with pending := [], pending_language := none }

/-! ## The orchestrating service (app/services/analysis.py) -/

/-- The outcomes of the external calls one `analyze_and_save` run makes:
the sentiment oracles for the review's text, the spaCy matches for aspect
extraction, a sentiment oracle per aspect's combined text, the key-phrase
extractor's output, and the database commit.

The `key_phrases` component is modelled from the spec: the repository imports
`KeyPhraseExtractor.extract_key_phrases` from `app/services/nlp/phrases.py`,
a file absent from the sources; per the spec (§4.4) any deterministic
extractor returning a polarity-bucket-keyed mapping of phrases is conformant,
so its output on the review's text is an oracle parameter here. -/
structure PipeOracle where
  sa : SAOracle
  aspect_matches : Except String (List AspectMatch)
  aspect_sa : String → SAOracle
  key_phrases : Except String (List (String × List String))
  commit_outcome : Except String Unit

/-- The `try` body of `ReviewAnalyzer.analyze_and_save` (steps 1–6): fetch
the review (absent → terminal no-op), detect and record the language, run
sentiment, aspects, per-aspect sentiment and key phrases, assemble the
`AnalysisResult` row, add it and commit.  An `Except.error` is an exception
propagating out of the `try` body. -/
def analyze_and_save_body (st : SAState) (o : PipeOracle) (review_id : Nat) (db : Db) :
    Except String Db :=
  match db.find_review review_id with
  | none => Except.ok db
  | some review =>
      let language := detect_language o.sa.detected
      let db1 := db.set_language review_id language
      match analyze st o.sa review.text (some language) with
      | Except.error e => Except.error e
      | Except.ok sentiment_result =>
          let aspects := extract_aspects o.aspect_matches
          let aspect_sentiments := aspects.map (fun kv =>
            (kv.1, classify_aspect_sentiment st (o.aspect_sa kv.1)
                     (String.intercalate " " kv.2)))
          match o.key_phrases with
          | Except.error e => Except.error e
          | Except.ok key_phrases =>
              let row : AnalysisResult :=
                { review_id := review_id,
                  sentiment := sentiment_result.sentiment,
                  confidence := sentiment_result.confidence,
                  aspects := aspect_sentiments,
                  key_phrases := key_phrases,
                  emotion_intensity := sentiment_result.emotion_intensity }
              let db2 := db1.add row
              match o.commit_outcome with
              | Except.error e => Except.error e
              | Except.ok _ => Except.ok db2.commit

/-- Method `ReviewAnalyzer.analyze_and_save`: the top-level `try`/`except` — any
exception from the body is caught, logged, the transaction rolled back, and
the function returns normally.  The `Except` in the result type records
whether an exception escapes to the caller. -/
def analyze_and_save (st : SAState) (o : PipeOracle) (review_id : Nat) (db : Db) :
    Except String Db :=
  match analyze_and_save_body st o review_id db with
  | Except.ok db1 => Except.ok db1
  | Except.error _ => Except.ok db.rollback

/-! ## The batch task (app/workers/tasks.py) -/

/-- The `results` dict accumulated by `analyze_review_batch`. -/
structure BatchResult where
  total : Nat
  processed : Nat
  failed : Nat
  failed_ids : List Nat
  deriving DecidableEq, Repr

/-- The per-review loop of `analyze_review_batch`: a normal return counts as
processed, a propagated exception increments `failed` and appends the id to
`failed_ids`.

Caveat on the `Db` component: the source invokes the `async def`
`analyze_and_save` from this synchronous Celery task without `await`
(tasks.py:54), so in the running program the call merely builds and discards
a coroutine — the pipeline body never executes on this path and the database
is left untouched.  This model executes the call; that is faithful for the
`BatchResult` accounting (the call returns normally either way, so the
counters are exactly the program's), but the database threaded through the
loop is what the task *would* persist had the call been awaited, and no
theorem below relies on it. -/
def batch_loop (st : SAState) (oracle_for : Nat → PipeOracle) :
    List Nat → Db → BatchResult → BatchResult × Db
  | [], db, acc => (acc, db)
  | rid :: rest, db, acc =>
      match analyze_and_save st (oracle_for rid) rid db with
      | Except.ok db1 =>
          batch_loop st oracle_for rest db1 { acc with processed := acc.processed + 1 }
      | Except.error _ =>
          batch_loop st oracle_for rest db
            { acc with failed := acc.failed + 1, failed_ids := acc.failed_ids ++ [rid] }

/-- Task `analyze_review_batch`: initialise the counters from the input length and
run the loop over the ids in input order. -/
def analyze_review_batch (st : SAState) (oracle_for : Nat → PipeOracle)
    (review_ids : List Nat) (db : Db) : BatchResult × Db :=
  batch_loop st oracle_for review_ids db
    { total := review_ids.length, processed := 0, failed := 0, failed_ids := [] }

/-! ## Theorems -/

/-- Rewriting `dominant_sentiment` as nested conditionals: Python's `max` keeps
the earliest maximal entry of the insertion order negative, neutral,
positive. -/
theorem dominant_sentiment_eq (s : Scores) :
    dominant_sentiment s =
      if s.positive > (if s.neutral > s.negative then s.neutral else s.negative) then "positive"
      else if s.neutral > s.negative then "neutral"
      else "negative" := by
  by_cases h1 : s.negative < s.neutral
  · by_cases h2 : s.neutral < s.positive
    · simp [dominant_sentiment, pyMax, gt_iff_lt, h1, h2]
    · simp [dominant_sentiment, pyMax, gt_iff_lt, h1, h2]
  · by_cases h2 : s.negative < s.positive
    · simp [dominant_sentiment, pyMax, gt_iff_lt, h1, h2]
    · simp [dominant_sentiment, pyMax, gt_iff_lt, h1, h2]

/-- C10: language detection is total and binary with an English catch-all:
the result is always `"ru"` or `"en"`; it is `"ru"` exactly when the
underlying detector raised or reported a code starting with `"ru"`, and
`"en"` for every other successfully detected code (French, German, … are
labelled `"en"`, not defaulted to `"ru"`). -/
theorem claim_C10_detect_language_total_binary (d : Except String String) :
    (detect_language d = "ru" ∨ detect_language d = "en") ∧
    (∀ e, d = Except.error e → detect_language d = "ru") ∧
    (∀ l, d = Except.ok l → l.startsWith "ru" = true → detect_language d = "ru") ∧
    (∀ l, d = Except.ok l → l.startsWith "ru" = false → detect_language d = "en") := by
  refine ⟨?_, ?_, ?_, ?_⟩
  · cases d with
    | ok l =>
        by_cases h : l.startsWith "ru"
        · exact Or.inl (by simp [detect_language, h])
        · exact Or.inr (by simp [detect_language, h])
    | error e => exact Or.inl rfl
  · intro e he; subst he; rfl
  · intro l hl hs; subst hl; simp [detect_language, hs]
  · intro l hl hs; subst hl; simp [detect_language, hs]

/-- With `fallback` set, `_analyze_with_transformers` returns normally for
every model outcome. -/
theorem analyze_with_transformers_ok (st : SAState) (o : SAOracle) (text lang : String)
    (hfb : st.fallback = true) :
    ∃ r, analyze_with_transformers st o text lang = Except.ok r := by
  unfold analyze_with_transformers
  cases h : o.model_probs with
  | ok probs => exact ⟨_, rfl⟩
  | error e =>
      rw [hfb]
      exact ⟨analyze_with_fallback o.blob_polarity, if_pos rfl⟩

/-- With `fallback` set, `analyze` returns normally for every oracle
outcome. -/
theorem analyze_ok (st : SAState) (o : SAOracle) (text : String) (language : Option String)
    (hfb : st.fallback = true) :
    ∃ r, analyze st o text language = Except.ok r := by
  unfold analyze
  split
  · exact analyze_with_transformers_ok st o text _ hfb
  · exact ⟨_, rfl⟩

/-- C2: with fallback enabled, `analyze` never raises — for every
configuration, oracle outcome, text and language it returns `Except.ok`; and
when the fallback path's own TextBlob call raises, the result is the fixed
neutral default `{neutral, 0.5, scores {0.3, 0.4, 0.3}, emotion_intensity {}}`. -/
theorem claim_C2_analyze_never_raises (st : SAState) (o : SAOracle)
    (text : String) (language : Option String) (hfb : st.fallback = true) :
    (∃ r, analyze st o text language = Except.ok r) ∧
    (∀ e, analyze_with_fallback (Except.error e) =
      { sentiment := "neutral", confidence := 0.5,
        scores := { negative := 0.3, neutral := 0.4, positive := 0.3 },
        emotion_intensity := [] }) := by
  exact ⟨analyze_ok st o text language hfb, fun e => rfl⟩

/-- Witness for C2 at a concrete input: transformers enabled for `"en"`, the
model call failing, the TextBlob call failing, empty text. -/
theorem claim_C2_witness :
    (∃ r, analyze { use_transformers := true, fallback := true, models := ["en"] }
        { detected := Except.error "LangDetectException",
          model_probs := Except.error "CUDA out of memory",
          blob_polarity := Except.error "MissingCorpusError" }
        "" (some "en") = Except.ok r) ∧
    (∀ e, analyze_with_fallback (Except.error e) =
      { sentiment := "neutral", confidence := 0.5,
        scores := { negative := 0.3, neutral := 0.4, positive := 0.3 },
        emotion_intensity := [] }) :=
  claim_C2_analyze_never_raises _ _ "" (some "en") rfl

/-- C5: the fallback path's threshold rules, exactly as the source computes
them, for every polarity in `[-1, 1]`. -/
theorem claim_C5_fallback_thresholds (p : ℚ) (hlo : -1 ≤ p) (hhi : p ≤ 1) :
    (p > 0.1 → fallback_result p =
      { sentiment := "positive", confidence := min 1 (p + 0.5),
        scores := { negative := max 0 (-p), neutral := 0.2, positive := max 0 p },
        emotion_intensity := [] }) ∧
    (p < -0.1 → fallback_result p =
      { sentiment := "negative", confidence := min 1 (|p| + 0.5),
        scores := { negative := max 0 (-p), neutral := 0.2, positive := max 0 p },
        emotion_intensity := [] }) ∧
    (¬ p > 0.1 → ¬ p < -0.1 → fallback_result p =
      { sentiment := "neutral", confidence := 0.5,
        scores := { negative := max 0 (-p), neutral := 0.5, positive := max 0 p },
        emotion_intensity := [] }) := by
  refine ⟨fun h => ?_, fun h => ?_, fun h1 h2 => ?_⟩
  · simp only [fallback_result, if_pos h]
    norm_num
    decide
  · have h' : ¬ p > 0.1 := by linarith
    simp only [fallback_result, if_neg h', if_pos h]
    norm_num
    decide
  · simp only [fallback_result, if_neg h1, if_neg h2]
    norm_num

/-- The label Python's `max` selects carries the maximum score, and the tie
break is positional: `neutral` wins only by a strict lead over `negative`,
`positive` only by a strict lead over both. -/
theorem dominant_sentiment_props (s : Scores) :
    scoreOf s (dominant_sentiment s) = max s.negative (max s.neutral s.positive) ∧
    (dominant_sentiment s = "neutral" → s.negative < s.neutral) ∧
    (dominant_sentiment s = "positive" → s.negative < s.positive ∧ s.neutral < s.positive) ∧
    (dominant_sentiment s = "negative" → s.neutral ≤ s.negative ∧ s.positive ≤ s.negative) := by
  by_cases h1 : s.negative < s.neutral
  · by_cases h2 : s.neutral < s.positive
    · have hd : dominant_sentiment s = "positive" := by
        rw [dominant_sentiment_eq]; simp [gt_iff_lt, h1, h2]
      have hm : max s.negative (max s.neutral s.positive) = s.positive := by
        rw [max_eq_right (le_of_lt h2), max_eq_right (by linarith)]
      rw [hd, hm]
      refine ⟨by simp [scoreOf], by simp, fun _ => ⟨by linarith, h2⟩, by simp⟩
    · have hd : dominant_sentiment s = "neutral" := by
        rw [dominant_sentiment_eq]; simp [gt_iff_lt, h1, h2]
      have hm : max s.negative (max s.neutral s.positive) = s.neutral := by
        rw [max_eq_left (not_lt.mp h2), max_eq_right (le_of_lt h1)]
      rw [hd, hm]
      refine ⟨by simp [scoreOf], fun _ => h1, by simp, by simp⟩
  · by_cases h2 : s.negative < s.positive
    · have hd : dominant_sentiment s = "positive" := by
        rw [dominant_sentiment_eq]; simp [gt_iff_lt, h1, h2]
      have hm : max s.negative (max s.neutral s.positive) = s.positive := by
        have hnp : s.neutral ≤ s.positive := le_trans (not_lt.mp h1) (le_of_lt h2)
        rw [max_eq_right hnp, max_eq_right (le_of_lt h2)]
      rw [hd, hm]
      refine ⟨by simp [scoreOf], by simp, fun _ => ⟨h2, by linarith [not_lt.mp h1]⟩, by simp⟩
    · have hd : dominant_sentiment s = "negative" := by
        rw [dominant_sentiment_eq]; simp [gt_iff_lt, h1, h2]
      have hm : max s.negative (max s.neutral s.positive) = s.negative := by
        rw [max_eq_left (max_le (not_lt.mp h1) (not_lt.mp h2))]
      rw [hd, hm]
      refine ⟨by simp [scoreOf], by simp, by simp, fun _ => ⟨not_lt.mp h1, not_lt.mp h2⟩⟩

/-- C6 counterexample: at the equal-probability model output
`(0.4, 0.4, 0.2)` — a tie for the maximum between negative and neutral — the
source's `max` over dict order returns `"negative"`, not the claimed
tie-break winner `"neutral"`. -/
theorem claim_C6_counterexample :
    (Scores.mk 0.4 0.4 0.2).negative = (Scores.mk 0.4 0.4 0.2).neutral ∧
    dominant_sentiment (Scores.mk 0.4 0.4 0.2) = "negative" ∧
    dominant_sentiment (Scores.mk 0.4 0.4 0.2) ≠ "neutral" := by
  have hd : dominant_sentiment (Scores.mk 0.4 0.4 0.2) = "negative" := by
    rw [dominant_sentiment_eq]
    norm_num
  exact ⟨rfl, hd, by rw [hd]; decide⟩

/-- C6 amended: on the primary-model path the returned sentiment is the
argmax label of the three-way distribution and the confidence is that label's
probability; a tie on the maximum is broken by the first label in the fixed
order negative, neutral, positive (so negative wins any tie it is part of,
and neutral beats positive). -/
theorem claim_C6_amended_argmax (st : SAState) (o : SAOracle) (text lang : String)
    (a b c : ℚ) (h : o.model_probs = Except.ok (a, b, c)) :
    ∃ r, analyze_with_transformers st o text lang = Except.ok r ∧
      r.sentiment = dominant_sentiment (Scores.mk a b c) ∧
      r.confidence = scoreOf (Scores.mk a b c) (dominant_sentiment (Scores.mk a b c)) ∧
      scoreOf (Scores.mk a b c) (dominant_sentiment (Scores.mk a b c)) = max a (max b c) ∧
      (dominant_sentiment (Scores.mk a b c) = "neutral" → a < b) ∧
      (dominant_sentiment (Scores.mk a b c) = "positive" → a < c ∧ b < c) ∧
      (dominant_sentiment (Scores.mk a b c) = "negative" → b ≤ a ∧ c ≤ a) := by
  obtain ⟨hmax, hneu, hpos, hneg⟩ := dominant_sentiment_props (Scores.mk a b c)
  refine ⟨{ sentiment := dominant_sentiment (Scores.mk a b c),
            confidence := scoreOf (Scores.mk a b c) (dominant_sentiment (Scores.mk a b c)),
            scores := Scores.mk a b c,
            emotion_intensity := calculate_emotion_intensity text lang },
          ?_, rfl, rfl, hmax, hneu, hpos, hneg⟩
  unfold analyze_with_transformers
  rw [h]

/-- Witness for the amended C6 at the concrete model output
`(0.2, 0.3, 0.5)`. -/
theorem claim_C6_amended_witness :
    ∃ r, analyze_with_transformers
        { use_transformers := true, fallback := true, models := ["en"] }
        { detected := Except.error "d", model_probs := Except.ok (0.2, 0.3, 0.5),
          blob_polarity := Except.error "b" } "some text" "en" = Except.ok r ∧
      r.sentiment = dominant_sentiment (Scores.mk 0.2 0.3 0.5) ∧
      r.confidence = scoreOf (Scores.mk 0.2 0.3 0.5) (dominant_sentiment (Scores.mk 0.2 0.3 0.5)) ∧
      scoreOf (Scores.mk 0.2 0.3 0.5) (dominant_sentiment (Scores.mk 0.2 0.3 0.5)) =
        max 0.2 (max 0.3 0.5) ∧
      (dominant_sentiment (Scores.mk 0.2 0.3 0.5) = "neutral" → (0.2 : ℚ) < 0.3) ∧
      (dominant_sentiment (Scores.mk 0.2 0.3 0.5) = "positive" →
        (0.2 : ℚ) < 0.5 ∧ (0.3 : ℚ) < 0.5) ∧
      (dominant_sentiment (Scores.mk 0.2 0.3 0.5) = "negative" →
        (0.3 : ℚ) ≤ 0.2 ∧ (0.5 : ℚ) ≤ 0.2) :=
  claim_C6_amended_argmax _ _ "some text" "en" 0.2 0.3 0.5 rfl

/-- Witness for C5 at `p = 1/2 ∈ [-1, 1]`. -/
theorem claim_C5_witness :
    ((1/2 : ℚ) > 0.1 → fallback_result (1/2) =
      { sentiment := "positive", confidence := min 1 ((1/2 : ℚ) + 0.5),
        scores := { negative := max 0 (-(1/2 : ℚ)), neutral := 0.2, positive := max 0 (1/2 : ℚ) },
        emotion_intensity := [] }) ∧
    ((1/2 : ℚ) < -0.1 → fallback_result (1/2) =
      { sentiment := "negative", confidence := min 1 (|(1/2 : ℚ)| + 0.5),
        scores := { negative := max 0 (-(1/2 : ℚ)), neutral := 0.2, positive := max 0 (1/2 : ℚ) },
        emotion_intensity := [] }) ∧
    (¬ (1/2 : ℚ) > 0.1 → ¬ (1/2 : ℚ) < -0.1 → fallback_result (1/2) =
      { sentiment := "neutral", confidence := 0.5,
        scores := { negative := max 0 (-(1/2 : ℚ)), neutral := 0.5, positive := max 0 (1/2 : ℚ) },
        emotion_intensity := [] }) :=
  claim_C5_fallback_thresholds (1/2) (by norm_num) (by norm_num)

/-- Summing a list divided termwise is the sum divided. -/
theorem sum_map_div (l : List ℚ) (t : ℚ) : (l.map (fun v => v / t)).sum = l.sum / t := by
  induction l with
  | nil => simp
  | cons x xs ih => simp [ih, add_div]

/-- The per-emotion intensities before normalisation are the five emotions,
in order. -/
theorem emotion_counts_keys (tl : String) :
    (emotion_counts tl).map Prod.fst = ["joy", "anger", "sadness", "surprise", "fear"] := by
  simp [emotion_counts, emotion_keywords]

/-- Every pre-normalisation intensity is nonnegative. -/
theorem emotion_counts_nonneg (tl : String) :
    ∀ kv ∈ emotion_counts tl, 0 ≤ kv.2 := by
  intro kv hkv
  simp only [emotion_counts, List.mem_map] at hkv
  obtain ⟨ek, _, rfl⟩ := hkv
  exact le_min (by norm_num) (by positivity)

/-- C7: for every input text, emotion intensity is over exactly the five
emotions joy, anger, sadness, surprise, fear (in that order); when some
emotion keyword occurs in the lower-cased text the five values sum to exactly
1, and when no keyword occurs all five values are zero. -/
theorem claim_C7_emotion_intensity_normalised (text language : String) :
    ((calculate_emotion_intensity text language).map Prod.fst =
      ["joy", "anger", "sadness", "surprise", "fear"]) ∧
    (emotion_keywords.any (fun ek => ek.2.any (fun w => pyContains text.toLower w)) = true →
      ((calculate_emotion_intensity text language).map Prod.snd).sum = 1) ∧
    (emotion_keywords.any (fun ek => ek.2.any (fun w => pyContains text.toLower w)) = false →
      ∀ kv ∈ calculate_emotion_intensity text language, kv.2 = 0) := by
  have hnn : ∀ x ∈ (emotion_counts text.toLower).map (fun kv => kv.2), 0 ≤ x := by
    intro x hx
    simp only [List.mem_map] at hx
    obtain ⟨kv, hkv, rfl⟩ := hx
    exact emotion_counts_nonneg _ kv hkv
  refine ⟨?_, ?_, ?_⟩
  · simp only [calculate_emotion_intensity]
    split
    · rw [List.map_map]
      have : (Prod.fst ∘ fun kv : String × ℚ =>
          (kv.1, kv.2 / ((emotion_counts text.toLower).map (fun kv => kv.2)).sum)) =
          Prod.fst := by
        funext kv; rfl
      rw [this, emotion_counts_keys]
    · exact emotion_counts_keys _
  · intro hany
    have htot : 0 < ((emotion_counts text.toLower).map (fun kv => kv.2)).sum := by
      rw [List.any_eq_true] at hany
      obtain ⟨ek, hek, hw⟩ := hany
      rw [List.any_eq_true] at hw
      have hc : 0 < ek.2.countP (fun w => pyContains text.toLower w) :=
        List.countP_pos_iff.mpr hw
      have hv : (0 : ℚ) <
          min 1 ((ek.2.countP (fun w => pyContains text.toLower w) : ℚ) * 0.2) := by
        refine lt_min (by norm_num) ?_
        have h1 : (1 : ℚ) ≤ (ek.2.countP (fun w => pyContains text.toLower w) : ℚ) := by
          exact_mod_cast hc
        nlinarith
      refine lt_of_lt_of_le hv (List.single_le_sum hnn _ ?_)
      simp only [List.mem_map]
      exact ⟨(ek.1, min 1 ((ek.2.countP (fun w => pyContains text.toLower w) : ℚ) * 0.2)),
        List.mem_map_of_mem _ hek, rfl⟩
    simp only [calculate_emotion_intensity]
    rw [if_pos htot, List.map_map]
    have : ((fun kv : String × ℚ => kv.2) ∘ fun kv : String × ℚ =>
        (kv.1, kv.2 / ((emotion_counts text.toLower).map (fun kv => kv.2)).sum)) =
        (fun v => v / ((emotion_counts text.toLower).map (fun kv => kv.2)).sum) ∘
          (fun kv : String × ℚ => kv.2) := by
      funext kv; rfl
    rw [this, ← List.map_map, sum_map_div]
    exact div_self (ne_of_gt htot)
  · intro hnone
    have hzero : ∀ kv ∈ emotion_counts text.toLower, kv.2 = 0 := by
      intro kv hkv
      simp only [emotion_counts, List.mem_map] at hkv
      obtain ⟨ek, hek, rfl⟩ := hkv
      rw [List.any_eq_false] at hnone
      have hw := hnone ek hek
      simp only [Bool.not_eq_true, List.any_eq_false] at hw
      have hc : ek.2.countP (fun w => pyContains text.toLower w) = 0 :=
        List.countP_eq_zero.mpr (by intro a ha; simpa using hw a ha)
      simp [hc]
    have htot : ((emotion_counts text.toLower).map (fun kv => kv.2)).sum = 0 :=
      List.sum_eq_zero (by
        intro x hx
        simp only [List.mem_map] at hx
        obtain ⟨kv, hkv, rfl⟩ := hx
        exact hzero kv hkv)
    simp only [calculate_emotion_intensity]
    rw [htot, if_neg (lt_irrefl 0)]
    exact hzero

/-- Looking a key up after one dict insertion: the inserted key's entry grew
by the one sentence, every other key is untouched. -/
theorem aspect_lookup_insert (a : List (String × List String)) (key s k : String) :
    aspect_lookup (insert_aspect a key s) k =
      if k = key then some ((aspect_lookup a key).getD [] ++ [s])
      else aspect_lookup a k := by
  induction a with
  | nil =>
      by_cases hk : k = key
      · simp [insert_aspect, aspect_lookup, hk]
      · have hk2 : ¬ key = k := fun h => hk h.symm
        simp [insert_aspect, aspect_lookup, hk, hk2]
  | cons kv rest ih =>
      by_cases hkv : kv.1 = key
      · by_cases hk : k = key
        · simp [insert_aspect, aspect_lookup, hkv, hk]
        · have hk2 : ¬ key = k := fun h => hk h.symm
          have hkvk : ¬ kv.1 = k := hkv ▸ hk2
          simp [insert_aspect, aspect_lookup, hkv, hk, hk2, hkvk]
      · by_cases hkvk : kv.1 = k
        · have hk : ¬ k = key := fun h => hkv (hkvk.trans h)
          simp [insert_aspect, aspect_lookup, hkv, hkvk, hk]
        · simp [insert_aspect, aspect_lookup, hkv, hkvk, ih]

/-- Folding the match list into the aspects dict appends, under each key, the
sentences of that key's matches in match order. -/
theorem extract_fold_lookup (ms : List AspectMatch) :
    ∀ (acc : List (String × List String)) (k : String),
      aspect_lookup
        (ms.foldl (fun a m => insert_aspect a m.token.toLower m.sentence) acc) k =
      match aspect_lookup acc k with
      | some l => some (l ++ (ms.filter (fun m => m.token.toLower = k)).map AspectMatch.sentence)
      | none =>
          if (ms.filter (fun m => m.token.toLower = k)) = [] then none
          else some ((ms.filter (fun m => m.token.toLower = k)).map AspectMatch.sentence)
  := by
  induction ms with
  | nil =>
      intro acc k
      cases h : aspect_lookup acc k <;> simp [h]
  | cons m rest ih =>
      intro acc k
      rw [List.foldl_cons, ih]
      by_cases hk : m.token.toLower = k
      · rw [aspect_lookup_insert, if_pos hk.symm]
        cases h : aspect_lookup acc k with
        | none => simp [h, List.filter_cons, hk]
        | some l => simp [h, List.filter_cons, hk]
      · rw [aspect_lookup_insert, if_neg (fun h => hk h.symm)]
        cases h : aspect_lookup acc k <;> simp [h, List.filter_cons, hk]

/-- C8: `extract_aspects` never raises: on any internal failure of the spaCy
pipeline or matcher it returns the empty mapping; on success, each literal
lower-cased matched token maps to the list, in match order, of the sentences
containing a match for that token, and no other key is present. -/
theorem claim_C8_extract_aspects_best_effort (matched : Except String (List AspectMatch)) :
    (∀ e, matched = Except.error e → extract_aspects matched = []) ∧
    (∀ ms, matched = Except.ok ms → ∀ key,
      aspect_lookup (extract_aspects matched) key =
        if (ms.filter (fun m => m.token.toLower = key)) = [] then none
        else some ((ms.filter (fun m => m.token.toLower = key)).map AspectMatch.sentence)) := by
  constructor
  · intro e he; subst he; rfl
  · intro ms hms key
    subst hms
    have h := extract_fold_lookup ms [] key
    simpa [extract_aspects, aspect_lookup] using h

/-- Every fallback-path result carries one of the three sentiment labels and
a confidence in `[0, 1]`. -/
theorem analyze_with_fallback_valid (bp : Except String ℚ) :
    ((analyze_with_fallback bp).sentiment = "positive" ∨
     (analyze_with_fallback bp).sentiment = "negative" ∨
     (analyze_with_fallback bp).sentiment = "neutral") ∧
    0 ≤ (analyze_with_fallback bp).confidence ∧ (analyze_with_fallback bp).confidence ≤ 1 := by
  cases bp with
  | error e =>
      refine ⟨Or.inr (Or.inr rfl), ?_, ?_⟩ <;> norm_num [analyze_with_fallback, default_neutral]
  | ok p =>
      show (_ ∧ _ ∧ _)
      simp only [analyze_with_fallback, fallback_result]
      by_cases h1 : p > 0.1
      · rw [if_pos h1]
        exact ⟨Or.inl rfl, le_min (by norm_num) (by linarith), min_le_left _ _⟩
      · rw [if_neg h1]
        by_cases h2 : p < -0.1
        · rw [if_pos h2]
          have habs : (0 : ℚ) ≤ |p| := abs_nonneg p
          exact ⟨Or.inr (Or.inl rfl), le_min (by norm_num) (by linarith), min_le_left _ _⟩
        · rw [if_neg h2]
          exact ⟨Or.inr (Or.inr rfl), by norm_num, by norm_num⟩

/-- The dominant label is always one of the three labels of the scores
dict. -/
theorem dominant_sentiment_mem (s : Scores) :
    dominant_sentiment s = "positive" ∨ dominant_sentiment s = "negative" ∨
    dominant_sentiment s = "neutral" := by
  rw [dominant_sentiment_eq]
  split_ifs <;> simp

/-- Whenever `analyze` returns normally and the model's probabilities (when
the model succeeded) lie in `[0, 1]`, the result carries one of the three
sentiment labels and a confidence in `[0, 1]`. -/
theorem analyze_ok_valid (st : SAState) (o : SAOracle) (text : String)
    (language : Option String)
    (hprobs : ∀ a b c, o.model_probs = Except.ok (a, b, c) →
      0 ≤ a ∧ a ≤ 1 ∧ 0 ≤ b ∧ b ≤ 1 ∧ 0 ≤ c ∧ c ≤ 1)
    (r : SentimentResult) (hr : analyze st o text language = Except.ok r) :
    (r.sentiment = "positive" ∨ r.sentiment = "negative" ∨ r.sentiment = "neutral") ∧
    0 ≤ r.confidence ∧ r.confidence ≤ 1 := by
  unfold analyze at hr
  split at hr
  · unfold analyze_with_transformers at hr
    cases hp : o.model_probs with
    | ok probs =>
        obtain ⟨a, b, c⟩ := probs
        simp only [hp, Except.ok.injEq] at hr
        obtain ⟨ha0, ha1, hb0, hb1, hc0, hc1⟩ := hprobs a b c hp
        subst hr
        have hmax := (dominant_sentiment_props (Scores.mk a b c)).1
        refine ⟨dominant_sentiment_mem (Scores.mk a b c), ?_, ?_⟩
        · show 0 ≤ scoreOf (Scores.mk a b c) (dominant_sentiment (Scores.mk a b c))
          rw [hmax]
          exact le_trans ha0 (le_max_left _ _)
        · show scoreOf (Scores.mk a b c) (dominant_sentiment (Scores.mk a b c)) ≤ 1
          rw [hmax]
          exact max_le ha1 (max_le hb1 hc1)
    | error e =>
        simp only [hp] at hr
        split at hr
        · simp only [Except.ok.injEq] at hr
          subst hr
          exact analyze_with_fallback_valid o.blob_polarity
        · simp at hr
  · have hr' := Except.ok.inj hr
    subst hr'
    exact analyze_with_fallback_valid o.blob_polarity

/-- C1: for every review id whose `Review` row exists, and for every oracle
outcome (with softmax probabilities in `[0, 1]` when the model ran),
`analyze_and_save` returns normally, and either leaves the committed
`AnalysisResult` rows unchanged (the rollback branch) or appends exactly one
new row for that review id whose sentiment is one of positive, negative,
neutral and whose confidence lies in `[0, 1]`. -/
theorem claim_C1_analyze_and_save_atomic (st : SAState) (o : PipeOracle) (rid : Nat)
    (db : Db) (hrev : ∃ rev, db.find_review rid = some rev)
    (hpend : db.pending = [])
    (hprobs : ∀ a b c, o.sa.model_probs = Except.ok (a, b, c) →
      0 ≤ a ∧ a ≤ 1 ∧ 0 ≤ b ∧ b ≤ 1 ∧ 0 ≤ c ∧ c ≤ 1) :
    ∃ db1, analyze_and_save st o rid db = Except.ok db1 ∧
      (db1.rows = db.rows ∨
       ∃ row, db1.rows = db.rows ++ [row] ∧ row.review_id = rid ∧
         (row.sentiment = "positive" ∨ row.sentiment = "negative" ∨
          row.sentiment = "neutral") ∧
         0 ≤ row.confidence ∧ row.confidence ≤ 1) := by
  obtain ⟨rev, hfind⟩ := hrev
  cases ha : analyze st o.sa rev.text (some (detect_language o.sa.detected)) with
  | error e =>
      refine ⟨db.rollback, ?_, Or.inl rfl⟩
      simp only [analyze_and_save, analyze_and_save_body, hfind, ha]
  | ok sr =>
      cases hkp : o.key_phrases with
      | error e =>
          refine ⟨db.rollback, ?_, Or.inl rfl⟩
          simp only [analyze_and_save, analyze_and_save_body, hfind, ha, hkp]
      | ok kps =>
          cases hc : o.commit_outcome with
          | error e =>
              refine ⟨db.rollback, ?_, Or.inl rfl⟩
              simp only [analyze_and_save, analyze_and_save_body, hfind, ha, hkp, hc]
          | ok u =>
              have hvalid := analyze_ok_valid st o.sa rev.text
                (some (detect_language o.sa.detected)) hprobs sr ha
              obtain ⟨row, hrowdef⟩ : ∃ row : AnalysisResult, row =
                  { review_id := rid, sentiment := sr.sentiment,
                    confidence := sr.confidence,
                    aspects := (extract_aspects o.aspect_matches).map (fun kv =>
                      (kv.1, classify_aspect_sentiment st (o.aspect_sa kv.1)
                        (String.intercalate " " kv.2))),
                    key_phrases := kps,
                    emotion_intensity := sr.emotion_intensity } := ⟨_, rfl⟩
              have hbody : analyze_and_save_body st o rid db =
                  Except.ok
                    (((db.set_language rid (detect_language o.sa.detected)).add
                      row).commit) := by
                rw [hrowdef]
                simp only [analyze_and_save_body, hfind, ha, hkp, hc]
              refine ⟨((db.set_language rid (detect_language o.sa.detected)).add row).commit,
                      ?_, Or.inr ⟨row, ?_, ?_, ?_, ?_, ?_⟩⟩
              · simp only [analyze_and_save, hbody]
              · simp [Db.commit, Db.add, Db.set_language, hpend]
              · rw [hrowdef]
              · rw [hrowdef]; exact hvalid.1
              · rw [hrowdef]; exact hvalid.2.1
              · rw [hrowdef]; exact hvalid.2.2

/-- Witness for C1 at a concrete input: a database holding review 1, the
fallback configuration, every oracle call succeeding. -/
theorem claim_C1_witness :
    ∃ db1, analyze_and_save
        { use_transformers := false, fallback := true, models := [] }
        { sa := { detected := Except.error "LangDetectException",
                  model_probs := Except.error "no model",
                  blob_polarity := Except.ok 0.5 },
          aspect_matches := Except.ok [],
          aspect_sa := fun _ => { detected := Except.error "d",
                                  model_probs := Except.error "m",
                                  blob_polarity := Except.ok 0 },
          key_phrases := Except.ok [],
          commit_outcome := Except.ok () } 1
        { reviews := [{ id := 1, text := "great quality", language := none }],
          rows := [], pending := [], pending_language := none } = Except.ok db1 ∧
      (db1.rows = ({ reviews := [{ id := 1, text := "great quality", language := none }],
                     rows := [], pending := [], pending_language := none } : Db).rows ∨
       ∃ row, db1.rows =
           ({ reviews := [{ id := 1, text := "great quality", language := none }],
              rows := [], pending := [], pending_language := none } : Db).rows ++ [row] ∧
         row.review_id = 1 ∧
         (row.sentiment = "positive" ∨ row.sentiment = "negative" ∨
          row.sentiment = "neutral") ∧
         0 ≤ row.confidence ∧ row.confidence ≤ 1) :=
  claim_C1_analyze_and_save_atomic _ _ 1 _ ⟨_, rfl⟩ rfl
    (fun a b c h => Except.noConfusion h)

/-- Function `analyze_and_save` never propagates an exception: whatever the body
does, the top-level `except` turns it into a normal return. -/
theorem analyze_and_save_ok (st : SAState) (o : PipeOracle) (rid : Nat) (db : Db) :
    ∃ db1, analyze_and_save st o rid db = Except.ok db1 := by
  unfold analyze_and_save
  cases h : analyze_and_save_body st o rid db with
  | ok db1 => exact ⟨db1, rfl⟩
  | error e => exact ⟨db.rollback, rfl⟩

/-- Running the batch loop only ever takes the success branch: the
accumulator's `processed` grows by the number of ids and nothing else
changes. -/
theorem batch_loop_run (st : SAState) (oracle_for : Nat → PipeOracle) :
    ∀ (ids : List Nat) (db : Db) (acc : BatchResult),
      ∃ db1, batch_loop st oracle_for ids db acc =
        ({ acc with processed := acc.processed + ids.length }, db1) := by
  intro ids
  induction ids with
  | nil =>
      intro db acc
      exact ⟨db, by simp [batch_loop]⟩
  | cons rid rest ih =>
      intro db acc
      obtain ⟨db1, h1⟩ := analyze_and_save_ok st (oracle_for rid) rid db
      obtain ⟨db2, h2⟩ := ih db1 { acc with processed := acc.processed + 1 }
      refine ⟨db2, ?_⟩
      rw [batch_loop]
      simp only [h1]
      rw [h2]
      simp [Nat.add_assoc, Nat.add_comm 1 rest.length]

/-- C3: for every list of review ids (and every database and oracle
outcome), the returned `BatchResult` satisfies `processed + failed = total`,
`failed_ids.length = failed`, and `failed_ids` is a subsequence of the input
ids — the failed ids in input order. -/
theorem claim_C3_batch_accounting (st : SAState) (oracle_for : Nat → PipeOracle)
    (review_ids : List Nat) (db : Db) :
    ((analyze_review_batch st oracle_for review_ids db).1.processed +
        (analyze_review_batch st oracle_for review_ids db).1.failed =
      (analyze_review_batch st oracle_for review_ids db).1.total) ∧
    ((analyze_review_batch st oracle_for review_ids db).1.failed_ids.length =
      (analyze_review_batch st oracle_for review_ids db).1.failed) ∧
    (analyze_review_batch st oracle_for review_ids db).1.failed_ids.Sublist review_ids := by
  obtain ⟨db1, h⟩ := batch_loop_run st oracle_for review_ids db
    { total := review_ids.length, processed := 0, failed := 0, failed_ids := [] }
  unfold analyze_review_batch
  rw [h]
  exact ⟨by simp, rfl, List.nil_sublist review_ids⟩

/-- C9: because `analyze_and_save` swallows every exception and returns
normally, the batch loop's per-item failure branch is dead code — every
`BatchResult` the task returns has `failed = 0`, `failed_ids = []` and
`processed = total`, whatever reviews exist and whatever the pipeline
oracles do. -/
theorem claim_C9_failure_branch_unreachable (st : SAState)
    (oracle_for : Nat → PipeOracle) (review_ids : List Nat) (db : Db) :
    (analyze_review_batch st oracle_for review_ids db).1.failed = 0 ∧
    (analyze_review_batch st oracle_for review_ids db).1.failed_ids = [] ∧
    (analyze_review_batch st oracle_for review_ids db).1.processed =
      (analyze_review_batch st oracle_for review_ids db).1.total := by
  obtain ⟨db1, h⟩ := batch_loop_run st oracle_for review_ids db
    { total := review_ids.length, processed := 0, failed := 0, failed_ids := [] }
  unfold analyze_review_batch
  rw [h]
  exact ⟨rfl, rfl, by simp⟩

/-! ## The concrete batch scenario of C4

A database holding reviews 1 and 3 (no review 2), the fallback configuration,
and oracles under which every pipeline step succeeds. -/

/-- The analyzer configuration for the C4 scenario: transformers disabled,
fallback enabled. -/
def batch_demo_state : SAState :=
  { use_transformers := false, fallback := true, models := [] }

/-- The per-review oracle for the C4 scenario: every external call that the
taken path makes succeeds (TextBlob polarity 0.5, no aspect matches, empty
key phrases, commit succeeds). -/
def batch_demo_oracle : PipeOracle :=
  { sa := { detected := Except.error "LangDetectException",
            model_probs := Except.error "models not loaded",
            blob_polarity := Except.ok 0.5 },
    aspect_matches := Except.ok [],
    aspect_sa := fun _ => { detected := Except.error "LangDetectException",
                            model_probs := Except.error "models not loaded",
                            blob_polarity := Except.ok 0 },
    key_phrases := Except.ok [],
    commit_outcome := Except.ok () }

/-- The database for the C4 scenario: reviews 1 and 3 exist, review 2 does
not; no analysis rows yet. -/
def batch_demo_db : Db :=
  { reviews := [{ id := 1, text := "first review", language := none },
                { id := 3, text := "third review", language := none }],
    rows := [], pending := [], pending_language := none }

/-- C4 counterexample: running the batch `[1, 2, 3]` where review 2 does not
exist yields `{total 3, processed 3, failed 0, failed_ids []}` — not the
claimed `processed = 2`: the loop increments `processed` on every normal
return, the not-found no-op included. -/
theorem claim_C4_counterexample :
    (analyze_review_batch batch_demo_state (fun _ => batch_demo_oracle)
        [1, 2, 3] batch_demo_db).1 =
      { total := 3, processed := 3, failed := 0, failed_ids := [] } ∧
    ({ total := 3, processed := 3, failed := 0, failed_ids := [] } : BatchResult) ≠
      { total := 3, processed := 2, failed := 0, failed_ids := [] } :=
  ⟨rfl, by decide⟩

/-- C4 amended: the batch `[1, 2, 3]` with review 2 absent returns
`BatchResult{total 3, processed 3, failed 0, failed_ids []}`: every per-item
call returns normally — a missing review is a terminal no-op, and the task
never awaits the async call, so nothing on this path raises — and each normal
return counts as processed, so the not-found id 2 is processed too, not a
failure. -/
theorem claim_C4_amended_scenario :
    (analyze_review_batch batch_demo_state (fun _ => batch_demo_oracle)
        [1, 2, 3] batch_demo_db).1 =
      { total := 3, processed := 3, failed := 0, failed_ids := [] } :=
  rfl

end ReviewAnalysis
